import Mathlib

/-!
Verification of the delivery-statistics aggregation logic of the SechaLog
client portal (a Next.js application).  The aggregation code lives in
`src/components/DashboardClient.tsx`, `src/components/LivraisonsClient.tsx`,
`src/components/D3Charts.tsx` and the `ParcelleAnalysisCard` component.
Nullable numeric database columns are modelled as `Option ℚ`, nullable text
columns as `Option String`, and JavaScript truthiness tests on them are
modelled explicitly (`null`/`undefined`, `0` and `""` are falsy).
Timestamps enter the aggregation only through their calendar day
(`d3.timeDay` truncation), so a delivery's date is modelled as an integer
day index.
-/

/-- Operation type of a delivery (`type_operation` column): `entree` is
material received, `sortie` is material shipped out. -/
inductive Op
  | entree
  | sortie
  deriving DecidableEq, Repr

/-- One delivery record, mirroring the `Livraison` interface of
`src/lib/supabase.ts` (the fields the aggregation reads).  `date_day` is the
calendar day of `date_pesee`. -/
structure Livraison where
  id : Nat
  date_day : Int
  type_operation : Op
  parcelle : Option String
  poids_sec : Option ℚ
  poids_brut : Option ℚ
  humidite : Option ℚ
  annulee : Bool
  deriving DecidableEq, Repr

/-- One parcel record, mirroring the `Parcelle` interface of
`src/lib/supabase.ts` (the fields the aggregation reads).  The
`surface_hectares` column is nullable in the database, hence `Option ℚ`. -/
structure Parcelle where
  nom_parcelle : String
  surface_hectares : Option ℚ
  actif : Bool
  deriving DecidableEq, Repr

/-- JavaScript `x || 0` on a nullable number (also the value of `x` when a
guard has already established it non-null). -/
def orZero (o : Option ℚ) : ℚ := o.getD 0

/-- JavaScript truthiness of a nullable number: `null`, `undefined` and `0`
are falsy. -/
def truthyNum (o : Option ℚ) : Bool :=
  match o with
  | none => false
  | some v => v != 0

/-- JavaScript truthiness of a nullable string: `null`, `undefined` and the
empty string are falsy. -/
def truthyStr (o : Option String) : Bool :=
  match o with
  | none => false
  | some s => s != ""

/-- Sum of `poids_sec` with null as 0 over a delivery list, the recurring
`reduce((sum, liv) => sum + (liv.poids_sec || 0), 0)` pattern. -/
def sumPoidsSec (livs : List Livraison) : ℚ :=
  (livs.map (fun l => orZero l.poids_sec)).sum

/-- Entry-side total of `DashboardClient.fetchFilteredData` (lines 134-136)
and `LivraisonsClient.fetchFilteredData` (lines 436-438): sum of
`poids_sec || 0` over deliveries with `type_operation === 'entree'`. -/
def totalEntrees (livs : List Livraison) : ℚ :=
  sumPoidsSec (livs.filter (fun l => l.type_operation == Op.entree))

/-- Exit-side total of the same code paths: sum of `poids_sec || 0` over
deliveries with `type_operation === 'sortie'`. -/
def totalSorties (livs : List Livraison) : ℚ :=
  sumPoidsSec (livs.filter (fun l => l.type_operation == Op.sortie))

/-- The balance computed by both components: `totalEntrees - totalSorties`. -/
def balance (livs : List Livraison) : ℚ :=
  totalEntrees livs - totalSorties livs

/-- Specification-style entry total (§4.1 of the spec): every delivery
contributes its dry weight when it is an entry and 0 otherwise. -/
def totalEntriesKgSpec (livs : List Livraison) : ℚ :=
  (livs.map (fun l => if l.type_operation == Op.entree then orZero l.poids_sec else 0)).sum

/-- Specification-style exit total, analogous to `totalEntriesKgSpec`. -/
def totalExitsKgSpec (livs : List Livraison) : ℚ :=
  (livs.map (fun l => if l.type_operation == Op.sortie then orZero l.poids_sec else 0)).sum

theorem sum_filter_map_eq {α : Type} (p : α → Bool) (f : α → ℚ) :
    ∀ l : List α, ((l.filter p).map f).sum = (l.map (fun x => if p x then f x else 0)).sum := by
  intro l
  induction l with
  | nil => rfl
  | cons x xs ih =>
    by_cases h : p x
    · simp [List.filter_cons, h, ih]
    · simp [List.filter_cons, h, ih]

/-- C3: for every delivery list the computed `balance` equals the
specification-style entry total minus the specification-style exit total,
where each total treats a null `poids_sec` as 0 and selects deliveries by
`type_operation`. -/
theorem c3_balance_eq (livs : List Livraison) :
    balance livs = totalEntriesKgSpec livs - totalExitsKgSpec livs := by
  unfold balance totalEntrees totalSorties sumPoidsSec totalEntriesKgSpec totalExitsKgSpec
  rw [sum_filter_map_eq, sum_filter_map_eq]

/-- Filter of `DashboardClient.fetchFilteredData` line 147 (and
`LivraisonsClient.fetchFilteredData` lines 384-387): entry deliveries with a
non-null `humidite` and a truthy `poids_brut`. -/
def livraisonsWithHumidite (livs : List Livraison) : List Livraison :=
  livs.filter (fun l =>
    l.type_operation == Op.entree && l.humidite.isSome && truthyNum l.poids_brut)

/-- Accumulated `humidite * poids_brut` over `livraisonsWithHumidite`
(`totalWeightedHumidite` in both components). -/
def totalWeightedHumidite (livs : List Livraison) : ℚ :=
  ((livraisonsWithHumidite livs).map (fun l => orZero l.humidite * orZero l.poids_brut)).sum

/-- Accumulated `poids_brut` over `livraisonsWithHumidite`
(`totalWeightForHumidite` in both components). -/
def totalWeightForHumidite (livs : List Livraison) : ℚ :=
  ((livraisonsWithHumidite livs).map (fun l => orZero l.poids_brut)).sum

/-- The global weighted average humidity of `DashboardClient.fetchFilteredData`
lines 160-162 and `LivraisonsClient.fetchFilteredData` lines 398-400:
weighted quotient when the accumulated weight is positive, else 0. -/
def moyenneHumidite (livs : List Livraison) : ℚ :=
  if 0 < totalWeightForHumidite livs
  then totalWeightedHumidite livs / totalWeightForHumidite livs
  else 0

/-- Definition following the wording of claim C2: the subset is every
delivery (of any operation type) with both `humidite` and `poids_brut`
present, and the value is 0 exactly when that subset is empty. -/
def moyenneHumiditeClaim (livs : List Livraison) : ℚ :=
  let sub := livs.filter (fun l => l.humidite.isSome && l.poids_brut.isSome)
  if sub.isEmpty then 0
  else (sub.map (fun l => orZero l.humidite * orZero l.poids_brut)).sum
    / (sub.map (fun l => orZero l.poids_brut)).sum

/-- A single exit delivery carrying a humidity reading and a gross weight. -/
def cexC2 : List Livraison :=
  [{ id := 1, date_day := 0, type_operation := Op.sortie, parcelle := some "A",
     poids_sec := some 400, poids_brut := some 100, humidite := some 10, annulee := false }]

/-- C2 counterexample: on a list holding one exit delivery with humidity 10
and gross weight 100 the code yields 0 (the exit is filtered out), while the
claim's any-operation-type formula yields 10. -/
theorem c2_counterexample : moyenneHumidite cexC2 ≠ moyenneHumiditeClaim cexC2 := by
  simp +decide [moyenneHumidite, moyenneHumiditeClaim, livraisonsWithHumidite,
    totalWeightForHumidite, totalWeightedHumidite, cexC2, orZero, truthyNum,
    List.filter_cons, List.isEmpty]

theorem truthyNum_orZero_ne {o : Option ℚ} (h : truthyNum o = true) : orZero o ≠ 0 := by
  cases o with
  | none => simp [truthyNum] at h
  | some v =>
    simp only [truthyNum, bne_iff_ne, ne_eq, decide_eq_true_eq] at h
    simpa [orZero] using h

theorem totalWeightForHumidite_pos (livs : List Livraison)
    (hbrut : ∀ l ∈ livs, 0 ≤ orZero l.poids_brut)
    (h : livraisonsWithHumidite livs ≠ []) : 0 < totalWeightForHumidite livs := by
  unfold totalWeightForHumidite
  apply List.sum_pos
  · intro x hx
    obtain ⟨l, hl, rfl⟩ := List.mem_map.mp hx
    have hmem := List.mem_filter.mp hl
    have hle : 0 ≤ orZero l.poids_brut := hbrut l hmem.1
    have htr : truthyNum l.poids_brut = true := by
      have := hmem.2
      simp only [Bool.and_eq_true] at this
      exact this.2
    exact lt_of_le_of_ne hle (Ne.symm (truthyNum_orZero_ne htr))
  · simpa using h

/-- C2 amended: the global weighted average humidity is restricted to
entry-type deliveries whose `humidite` is non-null and whose `poids_brut` is
non-null and nonzero; under the data-model precondition that gross weights
are non-negative, it is 0 exactly when that subset is empty and otherwise
equals the gross-weight-weighted quotient over that subset. -/
theorem c2_amended_weighted_humidity (livs : List Livraison)
    (hbrut : ∀ l ∈ livs, 0 ≤ orZero l.poids_brut) :
    (livraisonsWithHumidite livs = [] → moyenneHumidite livs = 0)
    ∧ (livraisonsWithHumidite livs ≠ [] →
        moyenneHumidite livs = totalWeightedHumidite livs / totalWeightForHumidite livs) := by
  constructor
  · intro hempty
    unfold moyenneHumidite
    have : totalWeightForHumidite livs = 0 := by
      unfold totalWeightForHumidite
      rw [hempty]
      rfl
    simp [this]
  · intro hne
    unfold moyenneHumidite
    rw [if_pos (totalWeightForHumidite_pos livs hbrut hne)]

/-- A single entry delivery with humidity 10 and gross weight 100. -/
def wC2 : List Livraison :=
  [{ id := 1, date_day := 0, type_operation := Op.entree, parcelle := some "A",
     poids_sec := some 1000, poids_brut := some 100, humidite := some 10, annulee := false }]

theorem c2_amended_weighted_humidity_witness :
    (∀ l ∈ wC2, 0 ≤ orZero l.poids_brut)
    ∧ moyenneHumidite wC2 = totalWeightedHumidite wC2 / totalWeightForHumidite wC2 :=
  ⟨by simp +decide [wC2, orZero],
   (c2_amended_weighted_humidity wC2 (by simp +decide [wC2, orZero])).2
     (by simp +decide [wC2, livraisonsWithHumidite, truthyNum, List.filter_cons])⟩

/-- Predicate of `DashboardClient.fetchFilteredData` line 165:
`p.surface_hectares && p.surface_hectares > 0` (JavaScript truthiness,
then the comparison). -/
def hasAreaDashboard (p : Parcelle) : Bool :=
  truthyNum p.surface_hectares && decide (0 < orZero p.surface_hectares)

/-- The `parcellesWithArea` list of `DashboardClient.fetchFilteredData`
line 165, computed from `initialParcelles` (which the dashboard page
fetches without any `actif` filter). -/
def parcellesWithArea (ps : List Parcelle) : List Parcelle :=
  ps.filter hasAreaDashboard

/-- Total surface of `DashboardClient.fetchFilteredData` line 166. -/
def surfaceTotale (ps : List Parcelle) : ℚ :=
  ((parcellesWithArea ps).map (fun p => orZero p.surface_hectares)).sum

/-- Name set of `DashboardClient.fetchFilteredData` line 169. -/
def parcelleNamesWithArea (ps : List Parcelle) : List String :=
  (parcellesWithArea ps).map (fun p => p.nom_parcelle)

/-- Deliveries of `DashboardClient.fetchFilteredData` lines 170-172: entry
deliveries whose `parcelle` is truthy and belongs to the name set. -/
def livraisonsFromParcellesWithArea (livs : List Livraison) (ps : List Parcelle) :
    List Livraison :=
  (livs.filter (fun l => l.type_operation == Op.entree)).filter
    (fun l => truthyStr l.parcelle && (parcelleNamesWithArea ps).contains (l.parcelle.getD ""))

/-- Numerator (in kg) of `DashboardClient.fetchFilteredData` line 173. -/
def totalPoidsSecFromAreaParcelles (livs : List Livraison) (ps : List Parcelle) : ℚ :=
  sumPoidsSec (livraisonsFromParcellesWithArea livs ps)

/-- Global yield of `DashboardClient.fetchFilteredData` lines 175-176:
`totalPoidsSecTonnes / surfaceTotale` when both the surface and the
kilogram numerator are positive, else null. -/
def rendementGlobal (livs : List Livraison) (ps : List Parcelle) : Option ℚ :=
  if 0 < surfaceTotale ps ∧ 0 < totalPoidsSecFromAreaParcelles livs ps
  then some (totalPoidsSecFromAreaParcelles livs ps / 1000 / surfaceTotale ps)
  else none

/-- Definition following the wording of claim C1: the qualifying set is the
parcels with `active = true` AND `surfaceHectares > 0`; the numerator is the
entry-delivery dry-weight sum over that set divided by 1000, the denominator
the surface sum over that set, and the result is their quotient iff both are
positive. -/
def rendementGlobalClaim (livs : List Livraison) (ps : List Parcelle) : Option ℚ :=
  let qual := ps.filter (fun p => p.actif && decide (0 < orZero p.surface_hectares))
  let names := qual.map (fun p => p.nom_parcelle)
  let num := sumPoidsSec ((livs.filter (fun l => l.type_operation == Op.entree)).filter
    (fun l =>
      match l.parcelle with
      | some s => names.contains s
      | none => false)) / 1000
  let den := (qual.map (fun p => orZero p.surface_hectares)).sum
  if 0 < den ∧ 0 < num then some (num / den) else none

/-- One inactive parcel of 2 hectares. -/
def cexC1Parcelles : List Parcelle :=
  [{ nom_parcelle := "A", surface_hectares := some 2, actif := false }]

/-- One entry delivery of 1000 kg dry weight on that parcel. -/
def cexC1Livs : List Livraison :=
  [{ id := 1, date_day := 0, type_operation := Op.entree, parcelle := some "A",
     poids_sec := some 1000, poids_brut := none, humidite := none, annulee := false }]

/-- C1 counterexample: with a single inactive 2-hectare parcel and a single
1000 kg entry delivery on it, the dashboard code reports a yield of one half
tonne per hectare (it never consults the `actif` flag), while the claim's
active-only formula reports null. -/
theorem c1_counterexample :
    rendementGlobal cexC1Livs cexC1Parcelles ≠ rendementGlobalClaim cexC1Livs cexC1Parcelles := by
  simp +decide [rendementGlobal, rendementGlobalClaim, surfaceTotale,
    totalPoidsSecFromAreaParcelles, livraisonsFromParcellesWithArea, parcelleNamesWithArea,
    parcellesWithArea, hasAreaDashboard, sumPoidsSec, cexC1Parcelles, cexC1Livs,
    orZero, truthyNum, truthyStr, List.filter_cons]

/-- Qualifying parcels of the amended claim: surface present and positive,
regardless of the `actif` flag. -/
def qualParcellesAmended (ps : List Parcelle) : List Parcelle :=
  ps.filter (fun p => decide (0 < orZero p.surface_hectares))

/-- Amended-claim numerator in tonnes: entry deliveries with a non-empty
parcel name belonging to the qualifying set, summed and divided by 1000. -/
def totalDryTonnesAmended (livs : List Livraison) (ps : List Parcelle) : ℚ :=
  sumPoidsSec (livs.filter (fun l =>
    l.type_operation == Op.entree &&
      (match l.parcelle with
       | some s => s != "" && ((qualParcellesAmended ps).map (fun p => p.nom_parcelle)).contains s
       | none => false))) / 1000

/-- Amended-claim denominator: surface sum over the qualifying parcels. -/
def totalSurfaceAmended (ps : List Parcelle) : ℚ :=
  ((qualParcellesAmended ps).map (fun p => orZero p.surface_hectares)).sum

/-- Amended-claim global yield. -/
def rendementGlobalAmended (livs : List Livraison) (ps : List Parcelle) : Option ℚ :=
  if 0 < totalSurfaceAmended ps ∧ 0 < totalDryTonnesAmended livs ps
  then some (totalDryTonnesAmended livs ps / totalSurfaceAmended ps)
  else none

theorem hasAreaDashboard_eq :
    hasAreaDashboard = fun p => decide (0 < orZero p.surface_hectares) := by
  funext p
  unfold hasAreaDashboard
  cases h : p.surface_hectares with
  | none => simp [truthyNum, orZero, h]
  | some v =>
    by_cases hv : 0 < v
    · simp [truthyNum, orZero, h, hv, bne_iff_ne, hv.ne']
    · simp [truthyNum, orZero, h, hv]

theorem surfaceTotale_eq_amended (ps : List Parcelle) :
    surfaceTotale ps = totalSurfaceAmended ps := by
  unfold surfaceTotale totalSurfaceAmended parcellesWithArea qualParcellesAmended
  rw [hasAreaDashboard_eq]

theorem totalDryTonnes_eq_amended (livs : List Livraison) (ps : List Parcelle) :
    totalDryTonnesAmended livs ps = totalPoidsSecFromAreaParcelles livs ps / 1000 := by
  unfold totalDryTonnesAmended totalPoidsSecFromAreaParcelles livraisonsFromParcellesWithArea
    qualParcellesAmended parcelleNamesWithArea parcellesWithArea
  rw [hasAreaDashboard_eq, List.filter_filter]
  congr 2
  apply List.filter_congr
  intro l _
  cases hp : l.parcelle <;> simp [truthyStr, hp, Bool.and_comm]

/-- C1 amended: the dashboard's global yield qualifies parcels by
`surfaceHectares > 0` alone (the `actif` flag plays no role, since the
dashboard page fetches the client's parcels without an `actif` filter); the
numerator is the dry-weight sum over entry deliveries whose parcel name is
non-empty and in that set, divided by 1000; the denominator is the surface
sum over that set; the result is numerator/denominator iff both are
positive, else null. -/
theorem c1_amended_global_yield (livs : List Livraison) (ps : List Parcelle) :
    rendementGlobal livs ps = rendementGlobalAmended livs ps := by
  unfold rendementGlobal rendementGlobalAmended
  rw [totalDryTonnes_eq_amended, ← surfaceTotale_eq_amended]
  have h1000 : (0 < totalPoidsSecFromAreaParcelles livs ps / 1000) ↔
      0 < totalPoidsSecFromAreaParcelles livs ps := by
    rw [lt_div_iff₀ (by norm_num : (0:ℚ) < 1000), zero_mul]
  simp only [h1000]

/-- Bucket key of the per-parcel breakdown, `liv.parcelle || 'Autres'`
(`LivraisonsClient.fetchFilteredData` line 461 and
`calculateInitialStats` line 213): a null or empty name falls back to the
raw sentinel. -/
def bucketKey (l : Livraison) : String :=
  match l.parcelle with
  | none => "Autres"
  | some s => if s = "" then "Autres" else s

/-- Deliveries of one bucket of the per-parcel breakdown. -/
def bucketLivs (livs : List Livraison) (key : String) : List Livraison :=
  livs.filter (fun l => bucketKey l == key)

/-- Humidity accumulator of the breakdown (line 481):
`if (liv.humidite) humidite += liv.humidite` adds only truthy values. -/
def bucketHumiditeSum (livs : List Livraison) (key : String) : ℚ :=
  ((bucketLivs livs key).map
    (fun l => if truthyNum l.humidite then orZero l.humidite else 0)).sum

/-- Delivery count of the bucket (`stats.livraisons`). -/
def bucketCount (livs : List Livraison) (key : String) : Nat :=
  (bucketLivs livs key).length

/-- Per-bucket humidity of `LivraisonsClient.fetchFilteredData` line 487 and
`calculateInitialStats` line 239: the accumulated humidity divided by the
bucket's TOTAL delivery count. -/
def bucketHumiditeAvg (livs : List Livraison) (key : String) : ℚ :=
  if 0 < bucketCount livs key
  then bucketHumiditeSum livs key / (bucketCount livs key : ℚ)
  else 0

/-- Definition following the wording of claim C5: the simple mean of
`humidite` over the bucket's deliveries with a non-null value, the
denominator being the count of those deliveries only. -/
def bucketHumiditeAvgClaim (livs : List Livraison) (key : String) : ℚ :=
  if 0 < (((bucketLivs livs key).filter (fun l => l.humidite.isSome)).length : ℚ)
  then (((bucketLivs livs key).filter (fun l => l.humidite.isSome)).map
        (fun l => orZero l.humidite)).sum
      / (((bucketLivs livs key).filter (fun l => l.humidite.isSome)).length : ℚ)
  else 0

/-- Two deliveries on parcel P, one with humidity 10 and one with no
humidity reading. -/
def cexC5 : List Livraison :=
  [{ id := 1, date_day := 0, type_operation := Op.entree, parcelle := some "P",
     poids_sec := some 100, poids_brut := some 110, humidite := some 10, annulee := false },
   { id := 2, date_day := 0, type_operation := Op.entree, parcelle := some "P",
     poids_sec := some 200, poids_brut := some 220, humidite := none, annulee := false }]

/-- C5 counterexample: in a bucket with one humidity-10 delivery and one
null-humidity delivery the code reports 10 / 2 = 5 (it divides by the
bucket's total delivery count), while the claim's non-null-count mean
reports 10 / 1 = 10. -/
theorem c5_counterexample : bucketHumiditeAvg cexC5 "P" ≠ bucketHumiditeAvgClaim cexC5 "P" := by
  simp +decide [bucketHumiditeAvg, bucketHumiditeAvgClaim, bucketHumiditeSum, bucketCount,
    bucketLivs, bucketKey, cexC5, orZero, truthyNum, List.filter_cons]
  norm_num

/-- Amended per-bucket humidity: the null-as-0 humidity sum divided by the
bucket's total delivery count. -/
def bucketHumiditeAvgAmended (livs : List Livraison) (key : String) : ℚ :=
  if (bucketLivs livs key).length = 0 then 0
  else ((bucketLivs livs key).map (fun l => orZero l.humidite)).sum
    / ((bucketLivs livs key).length : ℚ)

theorem ite_truthyNum_orZero (o : Option ℚ) :
    (if truthyNum o then orZero o else 0) = orZero o := by
  cases o with
  | none => simp [truthyNum, orZero]
  | some v => by_cases hv : v = 0 <;> simp [truthyNum, orZero, hv]

/-- C5 amended: the per-bucket `avgHumidityPercent` equals the sum of
`humidite` (null as 0; a truthiness test makes explicit zeros skip the
accumulator, which does not change the sum) divided by the bucket's TOTAL
delivery count, and 0 for an empty bucket — deliveries with a null humidity
still count in the denominator. -/
theorem c5_amended_bucket_humidity (livs : List Livraison) (key : String) :
    bucketHumiditeAvg livs key = bucketHumiditeAvgAmended livs key := by
  unfold bucketHumiditeAvg bucketHumiditeAvgAmended bucketHumiditeSum bucketCount
  have hmap : (bucketLivs livs key).map
        (fun l => if truthyNum l.humidite then orZero l.humidite else 0)
      = (bucketLivs livs key).map (fun l => orZero l.humidite) :=
    List.map_congr_left (fun l _ => ite_truthyNum_orZero l.humidite)
  rw [hmap]
  rcases Nat.eq_zero_or_pos (bucketLivs livs key).length with h | h
  · simp [h]
  · rw [if_pos h, if_neg (Nat.pos_iff_ne_zero.mp h)]

/-- Surface lookup `parcelles[name]?.surface_hectares` in the
LivraisonsClient parcelles map: the map associates a parcel name with its
(possibly absent) surface; an unknown name yields no surface at all. -/
def surfaceLookup (pmap : List (String × Option ℚ)) (name : String) : Option ℚ :=
  match pmap.find? (fun e => e.1 == name) with
  | none => none
  | some e => e.2

/-- Entry-only dry-weight accumulator of the per-parcel breakdown
(`LivraisonsClient.fetchFilteredData` lines 477-479, `poidsSecEntrees`). -/
def bucketPoidsSecEntrees (livs : List Livraison) (key : String) : ℚ :=
  sumPoidsSec ((bucketLivs livs key).filter (fun l => l.type_operation == Op.entree))

/-- Per-parcel yield of `LivraisonsClient.fetchFilteredData` lines 489-495:
`(poidsSecEntrees / 1000) / surface` when the looked-up surface is truthy
and positive and the entry sum is positive, else null. -/
def bucketRendement (pmap : List (String × Option ℚ)) (livs : List Livraison)
    (key : String) : Option ℚ :=
  if truthyNum (surfaceLookup pmap key) ∧ 0 < orZero (surfaceLookup pmap key)
      ∧ 0 < bucketPoidsSecEntrees livs key
  then some (bucketPoidsSecEntrees livs key / 1000 / orZero (surfaceLookup pmap key))
  else none

/-- The parcel's deliveries as selected by `DashboardClient.exportToPDF`
line 426: strict equality of `parcelle` with the parcel name. -/
def pdfParcelleLivraisons (livs : List Livraison) (p : Parcelle) : List Livraison :=
  livs.filter (fun l => l.parcelle == some p.nom_parcelle)

/-- Dry-weight sum of `DashboardClient.exportToPDF` line 428, taken over ALL
of the parcel's deliveries, entries and exits alike. -/
def pdfTotalPoidsSec (livs : List Livraison) (p : Parcelle) : ℚ :=
  sumPoidsSec (pdfParcelleLivraisons livs p)

/-- Per-parcel yield of `DashboardClient.exportToPDF` lines 446-449. -/
def pdfRendement (livs : List Livraison) (p : Parcelle) : Option ℚ :=
  if 0 < orZero p.surface_hectares ∧ 0 < pdfTotalPoidsSec livs p
  then some (pdfTotalPoidsSec livs p / 1000 / orZero p.surface_hectares)
  else none

/-- Entry deliveries of `ParcelleAnalysisCard.fetchParcelleStats` line 69
(the component receives the parcel's deliveries from its query). -/
def cardEntreeLivraisons (livs : List Livraison) : List Livraison :=
  livs.filter (fun l => l.type_operation == Op.entree)

/-- Per-parcel yield of `ParcelleAnalysisCard.fetchParcelleStats` lines
100-105: surface non-null and positive, entry sum positive, and a
(redundant) non-empty entry-list test. -/
def cardRendement (livs : List Livraison) (p : Parcelle) : Option ℚ :=
  if (p.surface_hectares.isSome ∧ 0 < orZero p.surface_hectares)
      ∧ 0 < sumPoidsSec (cardEntreeLivraisons livs)
      ∧ 0 < (cardEntreeLivraisons livs).length
  then some (sumPoidsSec (cardEntreeLivraisons livs) / 1000 / orZero p.surface_hectares)
  else none

/-- Definition following the wording of claim C6, applied to the PDF-export
path: the numerator should be the entry-only dry-weight sum of the parcel's
deliveries. -/
def pdfRendementClaim (livs : List Livraison) (p : Parcelle) : Option ℚ :=
  if 0 < orZero p.surface_hectares
      ∧ 0 < sumPoidsSec ((pdfParcelleLivraisons livs p).filter
          (fun l => l.type_operation == Op.entree))
  then some (sumPoidsSec ((pdfParcelleLivraisons livs p).filter
      (fun l => l.type_operation == Op.entree)) / 1000 / orZero p.surface_hectares)
  else none

/-- An active parcel of 2 hectares. -/
def cexC6Parc : Parcelle :=
  { nom_parcelle := "A", surface_hectares := some 2, actif := true }

/-- A single EXIT delivery of 500 kg dry weight on that parcel. -/
def cexC6Livs : List Livraison :=
  [{ id := 1, date_day := 0, type_operation := Op.sortie, parcelle := some "A",
     poids_sec := some 500, poids_brut := none, humidite := none, annulee := false }]

/-- C6 counterexample: with a 2-hectare parcel whose only delivery is an
exit of 500 kg, the PDF export reports a yield of 0.25 t/ha (its numerator
sums ALL deliveries), while the claim's entry-only formula reports null. -/
theorem c6_counterexample :
    pdfRendement cexC6Livs cexC6Parc ≠ pdfRendementClaim cexC6Livs cexC6Parc := by
  simp +decide [pdfRendement, pdfRendementClaim, pdfTotalPoidsSec, pdfParcelleLivraisons,
    sumPoidsSec, cexC6Parc, cexC6Livs, orZero, List.filter_cons]

/-- Amended-claim form of the breakdown yield: null when the name has no
surface in the map, else the entry-only formula guarded by positivity. -/
def bucketRendementSpec (pmap : List (String × Option ℚ)) (livs : List Livraison)
    (key : String) : Option ℚ :=
  match surfaceLookup pmap key with
  | none => none
  | some s =>
    if 0 < s ∧ 0 < bucketPoidsSecEntrees livs key
    then some (bucketPoidsSecEntrees livs key / 1000 / s)
    else none

/-- Amended-claim form of the PDF-export yield: the numerator sums the dry
weight of ALL the parcel's deliveries regardless of operation type. -/
def pdfRendementSpec (livs : List Livraison) (p : Parcelle) : Option ℚ :=
  match p.surface_hectares with
  | none => none
  | some s =>
    if 0 < s ∧ 0 < pdfTotalPoidsSec livs p
    then some (pdfTotalPoidsSec livs p / 1000 / s)
    else none

/-- Amended-claim form of the analysis-card yield: entry-only numerator,
without the redundant non-empty test. -/
def cardRendementSpec (livs : List Livraison) (p : Parcelle) : Option ℚ :=
  match p.surface_hectares with
  | none => none
  | some s =>
    if 0 < s ∧ 0 < sumPoidsSec (cardEntreeLivraisons livs)
    then some (sumPoidsSec (cardEntreeLivraisons livs) / 1000 / s)
    else none

theorem length_pos_of_sumPoidsSec_pos (L : List Livraison) (h : 0 < sumPoidsSec L) :
    0 < L.length := by
  cases L with
  | nil => simp [sumPoidsSec] at h
  | cons a as => simp

/-- C6 amended: the per-parcel yield is the entry-only formula with the
stated null conditions in the deliveries-page breakdown and in the parcel
analysis card (where a redundant non-empty test changes nothing), but in
the PDF export the numerator is the dry-weight sum over ALL of the parcel's
deliveries, exit deliveries included. -/
theorem c6_amended_per_parcel_yield (pmap : List (String × Option ℚ))
    (livs livsPdf livsCard : List Livraison) (key : String) (p q : Parcelle) :
    bucketRendement pmap livs key = bucketRendementSpec pmap livs key
    ∧ pdfRendement livsPdf p = pdfRendementSpec livsPdf p
    ∧ cardRendement livsCard q = cardRendementSpec livsCard q := by
  refine ⟨?_, ?_, ?_⟩
  · cases h : surfaceLookup pmap key with
    | none => simp [bucketRendement, bucketRendementSpec, h, truthyNum]
    | some s =>
      by_cases hs : 0 < s
      · simp [bucketRendement, bucketRendementSpec, h, truthyNum, orZero, hs,
          bne_iff_ne, hs.ne']
      · simp [bucketRendement, bucketRendementSpec, h, truthyNum, orZero, hs]
  · cases h : p.surface_hectares with
    | none => simp [pdfRendement, pdfRendementSpec, h, orZero]
    | some s => simp [pdfRendement, pdfRendementSpec, h, orZero]
  · cases h : q.surface_hectares with
    | none => simp [cardRendement, cardRendementSpec, h, orZero]
    | some s =>
      by_cases hsum : 0 < sumPoidsSec (cardEntreeLivraisons livsCard)
      · simp [cardRendement, cardRendementSpec, h, orZero, hsum,
          length_pos_of_sumPoidsSec_pos _ hsum]
      · simp [cardRendement, cardRendementSpec, h, orZero, hsum]

/-- Chart rollup key of `D3Charts.tsx` line 103:
`d.parcelle === 'Autres' ? label : (d.parcelle || label)`, parametrised by
the localized label returned by the translation layer. -/
def d3Key (otherLabel : String) (l : Livraison) : String :=
  if l.parcelle == some "Autres" then otherLabel
  else
    match l.parcelle with
    | none => otherLabel
    | some s => if s = "" then otherLabel else s

/-- Key collection of a JavaScript object built by successive insertions:
append a key on its first appearance. -/
def insertKey (acc : List String) (k : String) : List String :=
  if acc.contains k then acc else acc ++ [k]

/-- Distinct buckets of the `parcelleStats` object of
`LivraisonsClient.fetchFilteredData` lines 460-471, in first-appearance
order. -/
def parcelleKeys (livs : List Livraison) : List String :=
  livs.foldl (fun acc l => insertKey acc (bucketKey l)) []

/-- A delivery stored under the raw sentinel and a delivery stored under the
localized label of the sentinel. -/
def cexC7 : List Livraison :=
  [{ id := 1, date_day := 0, type_operation := Op.entree, parcelle := some "Autres",
     poids_sec := none, poids_brut := none, humidite := none, annulee := false },
   { id := 2, date_day := 0, type_operation := Op.entree, parcelle := some "Others",
     poids_sec := none, poids_brut := none, humidite := none, annulee := false }]

/-- C7 counterexample: in the deliveries-page breakdown a delivery stored as
'Autres' and one stored as the localized label 'Others' produce TWO distinct
buckets — the breakdown key performs no synonym normalization. -/
theorem c7_counterexample :
    parcelleKeys cexC7 = ["Autres", "Others"] ∧ ("Autres" : String) ≠ "Others" := by
  constructor
  · rfl
  · decide

/-- C7 amended: a delivery with a null or empty parcel name is grouped under
the sentinel bucket ('Autres' in the deliveries-page breakdown, the
localized label in the chart rollup); the CHART rollup merges the raw
spelling 'Autres' and the localized label into the single localized-label
bucket, but the deliveries-page breakdown keys buckets by the raw stored
name, so the two spellings form two distinct buckets there. -/
theorem c7_amended_sentinel_buckets (label : String) (l l1 l2 : Livraison) :
    ((l.parcelle = none ∨ l.parcelle = some "") →
      (bucketKey l = "Autres" ∧ d3Key label l = label))
    ∧ (l.parcelle = some "Autres" →
      (bucketKey l = "Autres" ∧ d3Key label l = label))
    ∧ (l1.parcelle = some "Autres" → l2.parcelle = some label →
      d3Key label l1 = d3Key label l2) := by
  refine ⟨?_, ?_, ?_⟩
  · rintro (h | h) <;> simp [bucketKey, d3Key, h]
  · intro h
    simp [bucketKey, d3Key, h]
  · intro h1 h2
    have e1 : d3Key label l1 = label := by simp [d3Key, h1]
    have e2 : d3Key label l2 = label := by
      by_cases hl : label = "Autres"
      · simp [d3Key, h2, hl]
      · by_cases he : label = ""
        · simp [d3Key, h2, he, hl]
        · simp [d3Key, h2, hl, he]
    rw [e1, e2]

/-- A delivery with no parcel name at all. -/
def wC7 : Livraison :=
  { id := 3, date_day := 0, type_operation := Op.entree, parcelle := none,
    poids_sec := none, poids_brut := none, humidite := none, annulee := false }

theorem c7_amended_sentinel_buckets_witness :
    bucketKey wC7 = "Autres" ∧ d3Key "Others" wC7 = "Others" :=
  (c7_amended_sentinel_buckets "Others" wC7 wC7 wC7).1 (Or.inl rfl)

/-- One point of the cumulative daily series built by `D3Charts.tsx`
lines 138-160 (`timelineData`). -/
structure TimelinePoint where
  day : Int
  entrees : ℚ
  sorties : ℚ
  cumulativeEntrees : ℚ
  cumulativeSorties : ℚ
  netStock : ℚ
  humidite : Option ℚ
  deriving DecidableEq, Repr

/-- Daily entry sum of the rollup (`D3Charts.tsx` line 127). -/
def dailyEntrees (livs : List Livraison) (d : Int) : ℚ :=
  sumPoidsSec (livs.filter (fun l => l.date_day == d && l.type_operation == Op.entree))

/-- Daily exit sum of the rollup (`D3Charts.tsx` line 128). -/
def dailySorties (livs : List Livraison) (d : Int) : ℚ :=
  sumPoidsSec (livs.filter (fun l => l.date_day == d && l.type_operation == Op.sortie))

/-- The day's deliveries with non-null `humidite` and truthy `poids_brut`
(`D3Charts.tsx` line 114). -/
def dayHumSubset (livs : List Livraison) (d : Int) : List Livraison :=
  livs.filter (fun l => l.date_day == d && l.humidite.isSome && truthyNum l.poids_brut)

/-- Daily weighted humidity of the rollup (`D3Charts.tsx` lines 113-124):
the gross-weight-weighted quotient when the accumulated weight is positive,
else null. -/
def dailyHumidite (livs : List Livraison) (d : Int) : Option ℚ :=
  if 0 < ((dayHumSubset livs d).map (fun l => orZero l.poids_brut)).sum
  then some (((dayHumSubset livs d).map (fun l => orZero l.humidite * orZero l.poids_brut)).sum
    / ((dayHumSubset livs d).map (fun l => orZero l.poids_brut)).sum)
  else none

/-- Sorted duplicate-free insertion of a day, modelling the rollup's
distinct day keys sorted ascending (`D3Charts.tsx` lines 139-140). -/
def insertDay (d : Int) : List Int → List Int
  | [] => [d]
  | e :: es =>
    if d < e then d :: e :: es
    else if d = e then e :: es
    else e :: insertDay d es

/-- The distinct days of the delivery list in ascending order. -/
def sortedDays (livs : List Livraison) : List Int :=
  livs.foldr (fun l acc => insertDay l.date_day acc) []

/-- Running-total construction of `timelineData` (`D3Charts.tsx`
lines 143-160): one point per day, accumulating entry and exit totals. -/
def timelineAux (livs : List Livraison) : List Int → ℚ → ℚ → List TimelinePoint
  | [], _, _ => []
  | d :: ds, ce, cs =>
    { day := d
      entrees := dailyEntrees livs d
      sorties := dailySorties livs d
      cumulativeEntrees := ce + dailyEntrees livs d
      cumulativeSorties := cs + dailySorties livs d
      netStock := (ce + dailyEntrees livs d) - (cs + dailySorties livs d)
      humidite := dailyHumidite livs d }
      :: timelineAux livs ds (ce + dailyEntrees livs d) (cs + dailySorties livs d)

/-- The cumulative daily series of `D3Charts.tsx`. -/
def timelineData (livs : List Livraison) : List TimelinePoint :=
  timelineAux livs (sortedDays livs) 0 0

theorem insertDay_head_or (d : Int) (l : List Int) (x : Int)
    (h : (insertDay d l).head? = some x) : x = d ∨ l.head? = some x := by
  cases l with
  | nil =>
    simp [insertDay] at h
    exact Or.inl h.symm
  | cons e es =>
    by_cases h1 : d < e
    · simp [insertDay, h1] at h
      exact Or.inl h.symm
    · by_cases h2 : d = e
      · simp [insertDay, h1, h2] at h
        exact Or.inr (by simp [h])
      · simp [insertDay, h1, h2] at h
        exact Or.inr (by simp [h])

theorem insertDay_chain (d : Int) (l : List Int) (h : List.Chain' (· < ·) l) :
    List.Chain' (· < ·) (insertDay d l) := by
  induction l with
  | nil => simp [insertDay]
  | cons e es ih =>
    by_cases h1 : d < e
    · rw [show insertDay d (e :: es) = d :: e :: es from by simp [insertDay, h1]]
      exact List.chain'_cons.mpr ⟨h1, h⟩
    · by_cases h2 : d = e
      · rw [show insertDay d (e :: es) = e :: es from by simp [insertDay, h1, h2]]
        exact h
      · have hlt : e < d := lt_of_le_of_ne (not_lt.mp h1) (Ne.symm h2)
        rw [show insertDay d (e :: es) = e :: insertDay d es from by simp [insertDay, h1, h2]]
        apply List.chain'_cons'.mpr
        refine ⟨?_, ih ((List.chain'_cons'.mp h).2)⟩
        intro y hy
        rcases insertDay_head_or d es y hy with rfl | hy'
        · exact hlt
        · exact (List.chain'_cons'.mp h).1 y hy'

theorem sortedDays_chain (livs : List Livraison) : List.Chain' (· < ·) (sortedDays livs) := by
  unfold sortedDays
  induction livs with
  | nil => simp
  | cons l ls ih => exact insertDay_chain _ _ ih

theorem sumPoidsSec_nonneg (livs : List Livraison)
    (h : ∀ l ∈ livs, 0 ≤ orZero l.poids_sec) : 0 ≤ sumPoidsSec livs := by
  unfold sumPoidsSec
  apply List.sum_nonneg
  intro x hx
  obtain ⟨l, hl, rfl⟩ := List.mem_map.mp hx
  exact h l hl

theorem dailyEntrees_nonneg (livs : List Livraison)
    (hdry : ∀ l ∈ livs, 0 ≤ orZero l.poids_sec) (d : Int) : 0 ≤ dailyEntrees livs d := by
  unfold dailyEntrees
  apply sumPoidsSec_nonneg
  intro l hl
  exact hdry l (List.mem_filter.mp hl).1

theorem dailySorties_nonneg (livs : List Livraison)
    (hdry : ∀ l ∈ livs, 0 ≤ orZero l.poids_sec) (d : Int) : 0 ≤ dailySorties livs d := by
  unfold dailySorties
  apply sumPoidsSec_nonneg
  intro l hl
  exact hdry l (List.mem_filter.mp hl).1

theorem timelineAux_mem (livs : List Livraison) :
    ∀ (ds : List Int) (ce cs : ℚ) (p : TimelinePoint), p ∈ timelineAux livs ds ce cs →
      p.netStock = p.cumulativeEntrees - p.cumulativeSorties
      ∧ p.humidite = dailyHumidite livs p.day := by
  intro ds
  induction ds with
  | nil =>
    intro ce cs p hp
    simp [timelineAux] at hp
  | cons d ds ih =>
    intro ce cs p hp
    rw [timelineAux] at hp
    rcases List.mem_cons.mp hp with rfl | hp'
    · exact ⟨rfl, rfl⟩
    · exact ih _ _ p hp'

theorem timelineAux_chain (livs : List Livraison)
    (hdry : ∀ l ∈ livs, 0 ≤ orZero l.poids_sec) :
    ∀ (ds : List Int) (ce cs : ℚ), List.Chain' (· < ·) ds →
      List.Chain' (fun p q : TimelinePoint =>
        p.day < q.day ∧ p.cumulativeEntrees ≤ q.cumulativeEntrees
          ∧ p.cumulativeSorties ≤ q.cumulativeSorties)
        (timelineAux livs ds ce cs) := by
  intro ds
  induction ds with
  | nil =>
    intro ce cs _
    simp [timelineAux]
  | cons d ds ih =>
    intro ce cs hch
    rw [timelineAux]
    cases ds with
    | nil => simp [timelineAux]
    | cons d2 ds2 =>
      rw [timelineAux]
      apply List.chain'_cons.mpr
      constructor
      · refine ⟨(List.chain'_cons.mp hch).1, ?_, ?_⟩
        · dsimp only
          have := dailyEntrees_nonneg livs hdry d2
          linarith
        · dsimp only
          have := dailySorties_nonneg livs hdry d2
          linarith
      · have h2 := ih (ce + dailyEntrees livs d) (cs + dailySorties livs d)
          (List.chain'_cons.mp hch).2
        rw [timelineAux] at h2
        exact h2

/-- C4: for every delivery list whose dry weights are non-negative, the
cumulative daily series is strictly ascending by day with non-decreasing
cumulative entry and exit totals between consecutive points, and every
point satisfies `netStock = cumulativeEntrees - cumulativeSorties` (no
constraint keeps `netStock` non-negative). -/
theorem c4_cumulative_series (livs : List Livraison)
    (hdry : ∀ l ∈ livs, 0 ≤ orZero l.poids_sec) :
    List.Chain' (fun p q : TimelinePoint =>
      p.day < q.day ∧ p.cumulativeEntrees ≤ q.cumulativeEntrees
        ∧ p.cumulativeSorties ≤ q.cumulativeSorties) (timelineData livs)
    ∧ ∀ p ∈ timelineData livs, p.netStock = p.cumulativeEntrees - p.cumulativeSorties := by
  constructor
  · exact timelineAux_chain livs hdry (sortedDays livs) 0 0 (sortedDays_chain livs)
  · intro p hp
    exact (timelineAux_mem livs (sortedDays livs) 0 0 p hp).1

/-- Two deliveries on two consecutive days: a 1000 kg entry then a 400 kg
exit. -/
def wC4 : List Livraison :=
  [{ id := 1, date_day := 0, type_operation := Op.entree, parcelle := some "N",
     poids_sec := some 1000, poids_brut := some 1100, humidite := some 18, annulee := false },
   { id := 2, date_day := 1, type_operation := Op.sortie, parcelle := some "N",
     poids_sec := some 400, poids_brut := some 420, humidite := none, annulee := false }]

theorem c4_cumulative_series_witness :
    (∀ l ∈ wC4, 0 ≤ orZero l.poids_sec)
    ∧ (List.Chain' (fun p q : TimelinePoint =>
        p.day < q.day ∧ p.cumulativeEntrees ≤ q.cumulativeEntrees
          ∧ p.cumulativeSorties ≤ q.cumulativeSorties) (timelineData wC4)
      ∧ ∀ p ∈ timelineData wC4, p.netStock = p.cumulativeEntrees - p.cumulativeSorties) :=
  ⟨by simp +decide [wC4, orZero],
   c4_cumulative_series wC4 (by simp +decide [wC4, orZero])⟩

theorem dayHumSubset_weight_pos (livs : List Livraison) (d : Int)
    (hbrut : ∀ l ∈ livs, 0 ≤ orZero l.poids_brut)
    (h : dayHumSubset livs d ≠ []) :
    0 < ((dayHumSubset livs d).map (fun l => orZero l.poids_brut)).sum := by
  apply List.sum_pos
  · intro x hx
    obtain ⟨l, hl, rfl⟩ := List.mem_map.mp hx
    have hmem := List.mem_filter.mp hl
    have htr : truthyNum l.poids_brut = true := by
      have := hmem.2
      simp only [Bool.and_eq_true] at this
      exact this.2
    exact lt_of_le_of_ne (hbrut l hmem.1) (Ne.symm (truthyNum_orZero_ne htr))
  · simpa using h

/-- C9: under the data-model precondition that gross weights are
non-negative, every point of the cumulative daily series carries a null
`humidite` whenever no delivery of its day has both a non-null humidity and
a truthy gross weight, and otherwise carries the gross-weight-weighted
humidity quotient over exactly that subset of the day's deliveries. -/
theorem c9_daily_humidity (livs : List Livraison)
    (hbrut : ∀ l ∈ livs, 0 ≤ orZero l.poids_brut) :
    ∀ p ∈ timelineData livs,
      (dayHumSubset livs p.day = [] → p.humidite = none)
      ∧ (dayHumSubset livs p.day ≠ [] →
          p.humidite = some
            (((dayHumSubset livs p.day).map (fun l => orZero l.humidite * orZero l.poids_brut)).sum
              / ((dayHumSubset livs p.day).map (fun l => orZero l.poids_brut)).sum)) := by
  intro p hp
  have hh : p.humidite = dailyHumidite livs p.day :=
    (timelineAux_mem livs (sortedDays livs) 0 0 p hp).2
  constructor
  · intro hempty
    rw [hh]
    unfold dailyHumidite
    rw [hempty]
    simp
  · intro hne
    rw [hh]
    unfold dailyHumidite
    rw [if_pos (dayHumSubset_weight_pos livs p.day hbrut hne)]

/-- One delivery with humidity 18 and gross weight 1100, and one the next
day with no humidity reading. -/
def wC9 : List Livraison :=
  [{ id := 1, date_day := 0, type_operation := Op.entree, parcelle := some "N",
     poids_sec := some 1000, poids_brut := some 1100, humidite := some 18, annulee := false },
   { id := 2, date_day := 1, type_operation := Op.sortie, parcelle := some "N",
     poids_sec := some 400, poids_brut := some 420, humidite := none, annulee := false }]

theorem c9_daily_humidity_witness :
    (∀ l ∈ wC9, 0 ≤ orZero l.poids_brut)
    ∧ ∀ p ∈ timelineData wC9,
      (dayHumSubset wC9 p.day = [] → p.humidite = none)
      ∧ (dayHumSubset wC9 p.day ≠ [] →
          p.humidite = some
            (((dayHumSubset wC9 p.day).map (fun l => orZero l.humidite * orZero l.poids_brut)).sum
              / ((dayHumSubset wC9 p.day).map (fun l => orZero l.poids_brut)).sum)) :=
  ⟨by simp +decide [wC9, orZero],
   c9_daily_humidity wC9 (by simp +decide [wC9, orZero])⟩

/-- Rewriting every delivery's `annulee` flag to a fixed value. -/
def setAnnulee (b : Bool) (l : Livraison) : Livraison :=
  { l with annulee := b }

theorem filter_map_sum_setAnnulee (b : Bool) (p : Livraison → Bool) (f : Livraison → ℚ)
    (hp : ∀ l, p (setAnnulee b l) = p l) (hf : ∀ l, f (setAnnulee b l) = f l) :
    ∀ livs : List Livraison,
      (((livs.map (setAnnulee b)).filter p).map f).sum = ((livs.filter p).map f).sum := by
  intro livs
  induction livs with
  | nil => rfl
  | cons x xs ih =>
    simp only [List.map_cons, List.filter_cons, hp]
    by_cases h : p x
    · simp [h, hf, ih]
    · simp [h, ih]

theorem filter_length_setAnnulee (b : Bool) (p : Livraison → Bool)
    (hp : ∀ l, p (setAnnulee b l) = p l) :
    ∀ livs : List Livraison,
      ((livs.map (setAnnulee b)).filter p).length = (livs.filter p).length := by
  intro livs
  induction livs with
  | nil => rfl
  | cons x xs ih =>
    simp only [List.map_cons, List.filter_cons, hp]
    by_cases h : p x
    · simp [h, ih]
    · simp [h, ih]

theorem totalEntrees_setAnnulee (b : Bool) (livs : List Livraison) :
    totalEntrees (livs.map (setAnnulee b)) = totalEntrees livs := by
  unfold totalEntrees sumPoidsSec
  apply filter_map_sum_setAnnulee
  · intro l
    rfl
  · intro l
    rfl

theorem totalSorties_setAnnulee (b : Bool) (livs : List Livraison) :
    totalSorties (livs.map (setAnnulee b)) = totalSorties livs := by
  unfold totalSorties sumPoidsSec
  apply filter_map_sum_setAnnulee
  · intro l
    rfl
  · intro l
    rfl

theorem moyenneHumidite_setAnnulee (b : Bool) (livs : List Livraison) :
    moyenneHumidite (livs.map (setAnnulee b)) = moyenneHumidite livs := by
  have h1 : totalWeightedHumidite (livs.map (setAnnulee b)) = totalWeightedHumidite livs := by
    unfold totalWeightedHumidite livraisonsWithHumidite
    apply filter_map_sum_setAnnulee
    · intro l
      rfl
    · intro l
      rfl
  have h2 : totalWeightForHumidite (livs.map (setAnnulee b)) = totalWeightForHumidite livs := by
    unfold totalWeightForHumidite livraisonsWithHumidite
    apply filter_map_sum_setAnnulee
    · intro l
      rfl
    · intro l
      rfl
  unfold moyenneHumidite
  rw [h1, h2]

theorem totalPoidsSecFromAreaParcelles_setAnnulee (b : Bool) (livs : List Livraison)
    (ps : List Parcelle) :
    totalPoidsSecFromAreaParcelles (livs.map (setAnnulee b)) ps
      = totalPoidsSecFromAreaParcelles livs ps := by
  unfold totalPoidsSecFromAreaParcelles livraisonsFromParcellesWithArea sumPoidsSec
  rw [List.filter_filter, List.filter_filter]
  apply filter_map_sum_setAnnulee
  · intro l
    rfl
  · intro l
    rfl

theorem bucketHumiditeAvg_setAnnulee (b : Bool) (livs : List Livraison) (key : String) :
    bucketHumiditeAvg (livs.map (setAnnulee b)) key = bucketHumiditeAvg livs key := by
  have h1 : bucketHumiditeSum (livs.map (setAnnulee b)) key = bucketHumiditeSum livs key := by
    unfold bucketHumiditeSum bucketLivs
    apply filter_map_sum_setAnnulee
    · intro l
      rfl
    · intro l
      rfl
  have h2 : bucketCount (livs.map (setAnnulee b)) key = bucketCount livs key := by
    unfold bucketCount bucketLivs
    apply filter_length_setAnnulee
    intro l
    rfl
  unfold bucketHumiditeAvg
  rw [h1, h2]

theorem bucketRendement_setAnnulee (b : Bool) (pmap : List (String × Option ℚ))
    (livs : List Livraison) (key : String) :
    bucketRendement pmap (livs.map (setAnnulee b)) key = bucketRendement pmap livs key := by
  have h1 : bucketPoidsSecEntrees (livs.map (setAnnulee b)) key
      = bucketPoidsSecEntrees livs key := by
    unfold bucketPoidsSecEntrees bucketLivs sumPoidsSec
    rw [List.filter_filter, List.filter_filter]
    apply filter_map_sum_setAnnulee
    · intro l
      rfl
    · intro l
      rfl
  unfold bucketRendement
  rw [h1]

theorem sortedDays_setAnnulee (b : Bool) (livs : List Livraison) :
    sortedDays (livs.map (setAnnulee b)) = sortedDays livs := by
  unfold sortedDays
  induction livs with
  | nil => rfl
  | cons x xs ih =>
    simp only [List.map_cons, List.foldr_cons, ih]
    rfl

theorem dailyEntrees_setAnnulee (b : Bool) (livs : List Livraison) (d : Int) :
    dailyEntrees (livs.map (setAnnulee b)) d = dailyEntrees livs d := by
  unfold dailyEntrees sumPoidsSec
  apply filter_map_sum_setAnnulee
  · intro l
    rfl
  · intro l
    rfl

theorem dailySorties_setAnnulee (b : Bool) (livs : List Livraison) (d : Int) :
    dailySorties (livs.map (setAnnulee b)) d = dailySorties livs d := by
  unfold dailySorties sumPoidsSec
  apply filter_map_sum_setAnnulee
  · intro l
    rfl
  · intro l
    rfl

theorem dailyHumidite_setAnnulee (b : Bool) (livs : List Livraison) (d : Int) :
    dailyHumidite (livs.map (setAnnulee b)) d = dailyHumidite livs d := by
  have h1 : ((dayHumSubset (livs.map (setAnnulee b)) d).map (fun l => orZero l.poids_brut)).sum
      = ((dayHumSubset livs d).map (fun l => orZero l.poids_brut)).sum := by
    unfold dayHumSubset
    apply filter_map_sum_setAnnulee
    · intro l
      rfl
    · intro l
      rfl
  have h2 : ((dayHumSubset (livs.map (setAnnulee b)) d).map
        (fun l => orZero l.humidite * orZero l.poids_brut)).sum
      = ((dayHumSubset livs d).map (fun l => orZero l.humidite * orZero l.poids_brut)).sum := by
    unfold dayHumSubset
    apply filter_map_sum_setAnnulee
    · intro l
      rfl
    · intro l
      rfl
  unfold dailyHumidite
  rw [h1, h2]

theorem timelineAux_setAnnulee (b : Bool) (livs : List Livraison) :
    ∀ (ds : List Int) (ce cs : ℚ),
      timelineAux (livs.map (setAnnulee b)) ds ce cs = timelineAux livs ds ce cs := by
  intro ds
  induction ds with
  | nil =>
    intro ce cs
    rfl
  | cons d ds ih =>
    intro ce cs
    rw [timelineAux, timelineAux, dailyEntrees_setAnnulee, dailySorties_setAnnulee,
      dailyHumidite_setAnnulee, ih]

/-- One VOIDED entry delivery of 100 kg dry weight. -/
def cexC8 : List Livraison :=
  [{ id := 1, date_day := 0, type_operation := Op.entree, parcelle := some "A",
     poids_sec := some 100, poids_brut := none, humidite := none, annulee := true }]

/-- C8 counterexample: a voided (`annulee = true`) entry delivery of 100 kg
contributes 100 kg to `totalEntrees` — removing voided deliveries changes
the aggregate, so they do NOT contribute nothing. -/
theorem c8_counterexample :
    totalEntrees cexC8 ≠ totalEntrees (cexC8.filter (fun l => !l.annulee)) := by
  simp +decide [totalEntrees, sumPoidsSec, cexC8, orZero, List.filter_cons]

/-- C8 amended: no code path in the repository filters on `annulee`: neither
the record-store queries nor the aggregation ever read the flag, so a voided
delivery contributes to every aggregate exactly as a non-voided one does —
formally, every aggregate is invariant under rewriting the `annulee` flag of
all deliveries. -/
theorem c8_amended_voided_not_filtered (livs : List Livraison) (ps : List Parcelle)
    (pmap : List (String × Option ℚ)) (key : String) (b : Bool) :
    totalEntrees (livs.map (setAnnulee b)) = totalEntrees livs
    ∧ totalSorties (livs.map (setAnnulee b)) = totalSorties livs
    ∧ balance (livs.map (setAnnulee b)) = balance livs
    ∧ moyenneHumidite (livs.map (setAnnulee b)) = moyenneHumidite livs
    ∧ rendementGlobal (livs.map (setAnnulee b)) ps = rendementGlobal livs ps
    ∧ bucketHumiditeAvg (livs.map (setAnnulee b)) key = bucketHumiditeAvg livs key
    ∧ bucketRendement pmap (livs.map (setAnnulee b)) key = bucketRendement pmap livs key
    ∧ timelineData (livs.map (setAnnulee b)) = timelineData livs := by
  refine ⟨totalEntrees_setAnnulee b livs, totalSorties_setAnnulee b livs, ?_,
    moyenneHumidite_setAnnulee b livs, ?_, bucketHumiditeAvg_setAnnulee b livs key,
    bucketRendement_setAnnulee b pmap livs key, ?_⟩
  · unfold balance
    rw [totalEntrees_setAnnulee, totalSorties_setAnnulee]
  · unfold rendementGlobal
    rw [totalPoidsSecFromAreaParcelles_setAnnulee]
  · unfold timelineData
    rw [sortedDays_setAnnulee, timelineAux_setAnnulee]

/-- Dropping leading whitespace characters. -/
def trimLeadChars : List Char → List Char
  | [] => []
  | c :: cs => if c.isWhitespace then trimLeadChars cs else c :: cs

/-- Model of JavaScript `String.prototype.trim`: whitespace removed from
both ends. -/
def jsTrim (s : String) : String :=
  String.mk (trimLeadChars (trimLeadChars s.data.reverse).reverse)

/-- The value sent by `LivraisonsClient.saveEdit` (lines 557-559):
`editingValue.trim() || 'Autres'` — the empty string is falsy, so a blank
input falls back to the raw sentinel. -/
def saveEditValue (editingValue : String) : String :=
  if jsTrim editingValue = "" then "Autres" else jsTrim editingValue

/-- Local-state update of `LivraisonsClient.updateParcelleInDatabase`
(lines 523-527): the edited delivery gets the new parcel name, every other
delivery is untouched. -/
def updateParcelleLocal (livs : List Livraison) (livraisonId : Nat)
    (newParcelle : String) : List Livraison :=
  livs.map (fun l =>
    if l.id = livraisonId then { l with parcelle := some newParcelle } else l)

/-- The full inline edit: first component is the value of the
`{ parcelle: newParcelle }` record-store update payload, second the updated
local delivery list (both built from the same `saveEditValue`). -/
def saveEdit (livs : List Livraison) (livraisonId : Nat) (editingValue : String) :
    String × List Livraison :=
  (saveEditValue editingValue,
   updateParcelleLocal livs livraisonId (saveEditValue editingValue))

/-- C10: the parcel value written by an inline edit — both the record-store
payload and the local list — is the raw sentinel 'Autres' when the entered
name trims to the empty string and the trimmed name otherwise; it is never
the empty string, and deliveries whose id does not match are left as they
were. -/
theorem c10_save_edit (livs : List Livraison) (lid : Nat) (s : String) :
    (jsTrim s = "" → (saveEdit livs lid s).1 = "Autres")
    ∧ (jsTrim s ≠ "" → (saveEdit livs lid s).1 = jsTrim s)
    ∧ (saveEdit livs lid s).1 ≠ ""
    ∧ ∀ l ∈ (saveEdit livs lid s).2,
        (l.id = lid → l.parcelle = some (saveEdit livs lid s).1)
        ∧ (l.id ≠ lid → l ∈ livs) := by
  refine ⟨?_, ?_, ?_, ?_⟩
  · intro h
    simp [saveEdit, saveEditValue, h]
  · intro h
    simp [saveEdit, saveEditValue, h]
  · by_cases h : jsTrim s = ""
    · simp [saveEdit, saveEditValue, h]
    · simp [saveEdit, saveEditValue, h]
  · intro l hl
    simp only [saveEdit, updateParcelleLocal] at hl
    obtain ⟨a, ha, hfa⟩ := List.mem_map.mp hl
    constructor
    · intro hid
      by_cases h2 : a.id = lid
      · rw [← hfa]
        simp [h2, saveEdit]
      · exfalso
        rw [← hfa] at hid
        simp [h2] at hid
    · intro hid
      by_cases h2 : a.id = lid
      · exfalso
        rw [← hfa] at hid
        simp [h2] at hid
      · rw [← hfa]
        simpa [h2] using ha

/-- A delivery with id 7 whose parcel is about to be edited. -/
def wC10 : Livraison :=
  { id := 7, date_day := 0, type_operation := Op.entree, parcelle := some "Old",
    poids_sec := none, poids_brut := none, humidite := none, annulee := false }

theorem c10_save_edit_witness :
    jsTrim "  " = "" ∧ (saveEdit [wC10] 7 "  ").1 = "Autres" :=
  ⟨by decide, (c10_save_edit [wC10] 7 "  ").1 (by decide)⟩
